import Mathlib

/-!
Fee-module parameters (`x/fees/types/params.go`)

A shallow embedding of the parameter set of the fees module and of its
validation routines, followed by the properties proved about them.

The Go file relies on three things that live outside of it:

* `sdk.Dec` of the cosmos-sdk: a fixed-point decimal, a struct holding a
  pointer to a big integer that stores the value scaled by `10^18`;
* `interface{}`: a dynamically typed value, on which the validators perform
  a type assertion;
* `error`: either `nil` or a value built by `fmt.Errorf`.

Each of them is modelled below, before the functions of the file itself.
-/

namespace Fees

/-! ## Go runtime: panics, dynamic values, errors -/

/-- Run-time panics that the decimal operations used by the file can raise. -/
inductive GoPanic where
  /-- Method call through a nil `*big.Int`. -/
  | nilDereference
  /-- The message `Int overflow` raised by `Dec.Add`. -/
  | intOverflow
  deriving DecidableEq, Repr

/-- Type `sdk.Dec`: `type Dec struct { i *big.Int }`. The pointer is `none`
when nil; otherwise the integer is the decimal value multiplied by
`10^Precision`. -/
structure Dec where
  i : Option Int
  deriving DecidableEq, Repr

/-- Values of type `interface{}` handed to the validators, by dynamic type.
A `uint64` is carried as a natural number. -/
inductive GoValue where
  | nil
  | bool (b : Bool)
  | uint64 (n : Nat)
  | int64 (n : Int)
  | string (s : String)
  | dec (d : Dec)
  deriving DecidableEq, Repr

/-- Errors built by the `fmt.Errorf` calls of the file, one constructor per
format string; the arguments of the call are kept. -/
inductive Err where
  /-- Format `invalid parameter type: %T`. -/
  | invalidType (i : GoValue)
  /-- Format `invalid parameter: nil`. -/
  | nilParameter
  /-- Format `value cannot be negative: %T` (shares). -/
  | negativeShares (i : GoValue)
  /-- Format `value cannot be greater than 1: %T`. -/
  | greaterThanOne (i : GoValue)
  /-- Format `value cannot be negative: %s` (minimum gas price). -/
  | negativeMinGasPrice (i : GoValue)
  /-- Format `total shares cannot be greater than 1: %#s + %#s`. -/
  | totalShares (developerShares validatorShares : Dec)
  deriving DecidableEq, Repr

deriving instance DecidableEq for Except

/-- Go `error`: `none` is the nil error. -/
abbrev GoError := Option Err

/-- Result of running a Go function that returns an `error`: either the
function panics, or it returns. -/
abbrev Run := Except GoPanic GoError

/-! ## The decimal library -/

/-- Number of decimal places of `sdk.Dec`. -/
def Precision : Nat := 18

/-- Largest bit length of an `sdk.Int`. -/
def maxBitLen : Nat := 256

/-- Bits needed to represent `10^Precision - 1`. -/
def DecimalPrecisionBits : Nat := 60

/-- Largest bit length a `Dec` may have after an arithmetic operation. Later
releases of the library allow one bit less; the results below only use that
the bound is at least 61, the width of twice `10^Precision`. -/
def maxDecBitLen : Nat := maxBitLen + DecimalPrecisionBits

/-- Number of halvings that bring `n` to zero, at most `fuel` of them. -/
def bitLenAux : Nat → Nat → Nat
  | 0, _ => 0
  | fuel + 1, n => if n = 0 then 0 else bitLenAux fuel (n / 2) + 1

/-- Method `big.Int.BitLen`: length in bits of the absolute value. -/
def BitLen (x : Int) : Nat :=
  bitLenAux x.natAbs x.natAbs

/-- Multiplier `10^(Precision - prec)`; the library panics when
`prec > Precision`, which the precondition excludes. -/
def precisionMultiplier (prec : Nat) (_h : prec ≤ Precision) : Int :=
  10 ^ (Precision - prec)

/-- Constructor `sdk.NewDecWithPrec(i, prec)`: the decimal `i * 10^(-prec)`. -/
def NewDecWithPrec (i : Int) (prec : Nat) (h : prec ≤ Precision) : Dec :=
  ⟨some (i * precisionMultiplier prec h)⟩

/-- Decimal `sdk.ZeroDec()`. -/
def ZeroDec : Dec := ⟨some 0⟩

/-- Decimal `sdk.OneDec()`. -/
def OneDec : Dec := ⟨some (10 ^ Precision)⟩

namespace Dec

/-- Method `IsNil`: is the pointer nil. -/
def IsNil (d : Dec) : Bool := d.i.isNone

/-- Method `IsNegative`: `d.i.Sign() == -1`. -/
def IsNegative (d : Dec) : Except GoPanic Bool :=
  match d.i with
  | none => .error .nilDereference
  | some x => .ok (decide (x < 0))

/-- Method `GT`: `d.i.Cmp(d2.i) > 0`. `big.Int.Cmp` answers 0 on two equal
pointers before reading them, so two nil pointers compare equal; a single nil
pointer is dereferenced. -/
def GT (d d2 : Dec) : Except GoPanic Bool :=
  match d.i, d2.i with
  | some x, some y => .ok (decide (y < x))
  | none, none => .ok false
  | _, _ => .error .nilDereference

/-- Method `Add`: integer addition, panicking when the sum is too wide. -/
def Add (d d2 : Dec) : Except GoPanic Dec :=
  match d.i, d2.i with
  | some x, some y =>
    if maxDecBitLen < BitLen (x + y) then .error .intOverflow
    else .ok ⟨some (x + y)⟩
  | _, _ => .error .nilDereference

/-- Rational number denoted by a decimal, when it is not nil. -/
def value (d : Dec) : Option ℚ :=
  d.i.map fun x => (x : ℚ) / 10 ^ Precision

end Dec

/-! ## The parameter set -/

/-- Struct `Params`. Field `AddrDerivationCostCreate` is a `uint64`, carried
as a natural number. -/
structure Params where
  EnableFees : Bool
  DeveloperShares : Dec
  ValidatorShares : Dec
  AddrDerivationCostCreate : Nat
  MinGasPrice : Dec
  deriving DecidableEq, Repr

def DefaultEnableFees : Bool := false

def DefaultDeveloperShares : Dec := NewDecWithPrec 50 2 (by decide)

def DefaultValidatorShares : Dec := NewDecWithPrec 50 2 (by decide)

def DefaultAddrDerivationCostCreate : Nat := 50

def DefaultMinGasPrice : Dec := ZeroDec

def ParamStoreKeyEnableFees : String := "EnableFees"

def ParamStoreKeyDeveloperShares : String := "DeveloperShares"

def ParamStoreKeyValidatorShares : String := "ValidatorShares"

def ParamStoreKeyAddrDerivationCostCreate : String := "AddrDerivationCostCreate"

def ParamStoreKeyMinGasPrice : String := "MinGasPrice"

/-- Function `NewParams`. -/
def NewParams (enableFees : Bool) (developerShares validatorShares : Dec)
    (addrDerivationCostCreate : Nat) (minGasPrice : Dec) : Params :=
  { EnableFees := enableFees
    DeveloperShares := developerShares
    ValidatorShares := validatorShares
    AddrDerivationCostCreate := addrDerivationCostCreate
    MinGasPrice := minGasPrice }

/-- Function `DefaultParams`. -/
def DefaultParams : Params :=
  { EnableFees := DefaultEnableFees
    DeveloperShares := DefaultDeveloperShares
    ValidatorShares := DefaultValidatorShares
    AddrDerivationCostCreate := DefaultAddrDerivationCostCreate
    MinGasPrice := DefaultMinGasPrice }

/-! ## Validators -/

/-- Function `validateUint64`. -/
def validateUint64 (i : GoValue) : Run :=
  match i with
  | .uint64 _ => .ok none
  | _ => .ok (some (.invalidType i))

/-- Function `validateBool`. -/
def validateBool (i : GoValue) : Run :=
  match i with
  | .bool _ => .ok none
  | _ => .ok (some (.invalidType i))

/-- Function `validateShares`. -/
def validateShares (i : GoValue) : Run :=
  match i with
  | .dec v =>
    if v.IsNil then .ok (some .nilParameter)
    else
      v.IsNegative >>= fun neg =>
      if neg then .ok (some (.negativeShares i))
      else
        v.GT OneDec >>= fun gt =>
        if gt then .ok (some (.greaterThanOne i))
        else .ok none
  | _ => .ok (some (.invalidType i))

/-- Function `validateMinGasPrice`. -/
def validateMinGasPrice (i : GoValue) : Run :=
  match i with
  | .dec v =>
    if v.IsNil then .ok (some .nilParameter)
    else
      v.IsNegative >>= fun neg =>
      if neg then .ok (some (.negativeMinGasPrice i))
      else .ok none
  | _ => .ok (some (.invalidType i))

/-- Statement `if err := f(); err != nil { return err }` followed by `rest`. -/
def orElse (r : Run) (rest : Run) : Run :=
  r >>= fun err =>
  match err with
  | some e => .ok (some e)
  | none => rest

/-- Method `Params.Validate`. -/
def Params.Validate (p : Params) : Run :=
  orElse (validateBool (.bool p.EnableFees)) <|
  orElse (validateShares (.dec p.DeveloperShares)) <|
  orElse (validateShares (.dec p.ValidatorShares)) <|
  p.DeveloperShares.Add p.ValidatorShares >>= fun sum =>
  sum.GT OneDec >>= fun gt =>
  if gt then .ok (some (.totalShares p.DeveloperShares p.ValidatorShares))
  else
    orElse (validateUint64 (.uint64 p.AddrDerivationCostCreate)) <|
    validateMinGasPrice (.dec p.MinGasPrice)

/-! ## Registration with the parameter store -/

/-- Pointer to a field of a `Params`, as passed to `NewParamSetPair`. -/
inductive FieldPtr where
  | EnableFees
  | DeveloperShares
  | ValidatorShares
  | AddrDerivationCostCreate
  | MinGasPrice
  deriving DecidableEq, Repr

/-- Value stored behind a field pointer, as an `interface{}`. -/
def FieldPtr.deref (f : FieldPtr) (p : Params) : GoValue :=
  match f with
  | .EnableFees => .bool p.EnableFees
  | .DeveloperShares => .dec p.DeveloperShares
  | .ValidatorShares => .dec p.ValidatorShares
  | .AddrDerivationCostCreate => .uint64 p.AddrDerivationCostCreate
  | .MinGasPrice => .dec p.MinGasPrice

/-- Struct `paramtypes.ParamSetPair`. -/
structure ParamSetPair where
  Key : String
  Value : FieldPtr
  ValidatorFn : GoValue → Run

/-- Function `paramtypes.NewParamSetPair`. -/
def NewParamSetPair (key : String) (value : FieldPtr) (vfn : GoValue → Run) :
    ParamSetPair :=
  ⟨key, value, vfn⟩

/-- Method `Params.ParamSetPairs`. -/
def Params.ParamSetPairs (_p : Params) : List ParamSetPair :=
  [ NewParamSetPair ParamStoreKeyEnableFees .EnableFees validateBool,
    NewParamSetPair ParamStoreKeyDeveloperShares .DeveloperShares validateShares,
    NewParamSetPair ParamStoreKeyValidatorShares .ValidatorShares validateShares,
    NewParamSetPair ParamStoreKeyAddrDerivationCostCreate .AddrDerivationCostCreate
      validateUint64,
    NewParamSetPair ParamStoreKeyMinGasPrice .MinGasPrice validateMinGasPrice ]

/-! ## Order of the checks -/

/-- Comparison of the sum of the two shares with one, the check that
`Params.Validate` performs inline between the validator calls. -/
def totalSharesCheck (p : Params) : Run :=
  p.DeveloperShares.Add p.ValidatorShares >>= fun sum =>
  sum.GT OneDec >>= fun gt =>
  if gt then .ok (some (.totalShares p.DeveloperShares p.ValidatorShares))
  else .ok none

/-- Outcome of the first check of a sequence that does not succeed, and
success when all of them succeed; later checks are not consulted. -/
def firstFailingCheck : List Run → Run
  | [] => .ok none
  | .ok none :: rest => firstFailingCheck rest
  | r :: _ => r

/-- The five results `validateShares` can produce on the input `i`. -/
def sharesOutcomes (i : GoValue) : List Run :=
  [ .ok (some (.invalidType i)), .ok (some .nilParameter),
    .ok (some (.negativeShares i)), .ok (some (.greaterThanOne i)), .ok none ]

/-! ## Validity as the data model states it -/

/-- Invariants of an accepted parameter set, over the values that the
decimals denote: both shares defined and in `[0, 1]`, their sum at most 1, the
minimum gas price defined and not negative. -/
def SpecValid (p : Params) : Prop :=
  ∃ dev val mgp : ℚ,
    p.DeveloperShares.value = some dev ∧ p.ValidatorShares.value = some val ∧
    p.MinGasPrice.value = some mgp ∧
    0 ≤ dev ∧ dev ≤ 1 ∧ 0 ≤ val ∧ val ≤ 1 ∧ dev + val ≤ 1 ∧ 0 ≤ mgp

/-! ## Error messages -/

/-- Verb `%T` of `fmt`: the dynamic type of the value. -/
def GoValue.typeName : GoValue → String
  | .nil => "<nil>"
  | .bool _ => "bool"
  | .uint64 _ => "uint64"
  | .int64 _ => "int64"
  | .string _ => "string"
  | .dec _ => "types.Dec"

/-- Method `Dec.String`: the absolute value in decimal digits with the point
placed `Precision` digits from the right, padded with zeros after `0.` when
there are at most `Precision` digits, and a leading `-` when negative. -/
def DecString (d : Dec) : String :=
  match d.i with
  | none => "<nil>"
  | some x =>
    let bzInt : List Char := (Nat.repr x.natAbs).data
    let inputSize := bzInt.length
    let bzStr : List Char :=
      if inputSize ≤ Precision then
        '0' :: '.' :: (List.replicate (Precision - inputSize) '0' ++ bzInt)
      else
        bzInt.take (inputSize - Precision) ++ '.' :: bzInt.drop (inputSize - Precision)
    if x < 0 then "-" ++ String.mk bzStr else String.mk bzStr

/-- Verbs `%s` and `%#s` of `fmt`. A `Dec` implements `fmt.Formatter` by
writing its `String()`; the basic types other than strings are reported as
a bad verb. -/
def GoValue.formatS : GoValue → String
  | .nil => "%!s(<nil>)"
  | .bool b => "%!s(bool=" ++ (if b then "true" else "false") ++ ")"
  | .uint64 n => "%!s(uint64=" ++ Nat.repr n ++ ")"
  | .int64 n => "%!s(int64=" ++ (if n < 0 then "-" else "") ++ Nat.repr n.natAbs ++ ")"
  | .string s => s
  | .dec d => DecString d

/-- Method `Error` of the errors built by `fmt.Errorf`: the formatted message. -/
def Err.Error : Err → String
  | .invalidType i => "invalid parameter type: " ++ i.typeName
  | .nilParameter => "invalid parameter: nil"
  | .negativeShares i => "value cannot be negative: " ++ i.typeName
  | .greaterThanOne i => "value cannot be greater than 1: " ++ i.typeName
  | .negativeMinGasPrice i => "value cannot be negative: " ++ i.formatS
  | .totalShares dev val =>
    "total shares cannot be greater than 1: " ++ DecString dev ++ " + " ++ DecString val

/-- Does the text `part` occur in the message `msg`. -/
def mentions (msg part : String) : Bool :=
  decide (part.data <:+: msg.data)

/-! ## Auxiliary facts -/

theorem bitLenAux_le_iff (fuel : Nat) :
    ∀ n k : Nat, n ≤ fuel → (bitLenAux fuel n ≤ k ↔ n < 2 ^ k) := by
  induction fuel with
  | zero =>
    intro n k h
    have hn : n = 0 := Nat.le_zero.mp h
    subst hn
    simp [bitLenAux]
  | succ f ih =>
    intro n k h
    by_cases hn : n = 0
    · subst hn
      simp [bitLenAux]
    · have hhalf : n / 2 ≤ f := by omega
      cases k with
      | zero =>
        simp [bitLenAux, hn]
      | succ k =>
        simp only [bitLenAux, hn, if_false, Nat.add_le_add_iff_right]
        rw [ih (n / 2) k hhalf, pow_succ]
        omega

theorem BitLen_le_iff (x : Int) (k : Nat) : BitLen x ≤ k ↔ x.natAbs < 2 ^ k :=
  bitLenAux_le_iff x.natAbs x.natAbs k le_rfl

theorem Add_of_unit_range (x y : Int) (hx0 : 0 ≤ x) (hx1 : x ≤ 10 ^ 18)
    (hy0 : 0 ≤ y) (hy1 : y ≤ 10 ^ 18) :
    Dec.Add ⟨some x⟩ ⟨some y⟩ = .ok ⟨some (x + y)⟩ := by
  have hlen : BitLen (x + y) ≤ maxDecBitLen := by
    rw [BitLen_le_iff]
    have h2 : (2 : Nat) ^ 61 ≤ 2 ^ maxDecBitLen :=
      Nat.pow_le_pow_right (by decide) (by decide)
    have h3 : (x + y).natAbs < 2 ^ 61 := by
      norm_num at hx1 hy1 ⊢
      omega
    omega
  simp only [Dec.Add]
  rw [if_neg (Nat.not_lt.mpr hlen)]

theorem validateShares_nil : validateShares (.dec ⟨none⟩) = .ok (some .nilParameter) := rfl

theorem validateShares_some (x : Int) :
    validateShares (.dec ⟨some x⟩) =
      if x < 0 then .ok (some (.negativeShares (.dec ⟨some x⟩)))
      else if 10 ^ 18 < x then .ok (some (.greaterThanOne (.dec ⟨some x⟩)))
      else .ok none := by
  simp only [validateShares, Dec.IsNil, Dec.IsNegative, Dec.GT, OneDec, Precision,
    Option.isNone, bind, Except.bind]
  by_cases h1 : x < 0
  · simp [h1]
  · by_cases h2 : (10 : Int) ^ 18 < x
    · simp [h1, h2]
    · simp [h1, h2]

theorem validateMinGasPrice_nil :
    validateMinGasPrice (.dec ⟨none⟩) = .ok (some .nilParameter) := rfl

theorem validateMinGasPrice_some (x : Int) :
    validateMinGasPrice (.dec ⟨some x⟩) =
      if x < 0 then .ok (some (.negativeMinGasPrice (.dec ⟨some x⟩)))
      else .ok none := by
  simp only [validateMinGasPrice, Dec.IsNil, Dec.IsNegative, Option.isNone, bind,
    Except.bind]
  by_cases h1 : x < 0
  · simp [h1]
  · simp [h1]

theorem orElse_ok_none (rest : Run) : orElse (.ok none) rest = rest := rfl

theorem orElse_ok_some (e : Err) (rest : Run) :
    orElse (.ok (some e)) rest = .ok (some e) := rfl

theorem Validate_developer_nil (b : Bool) (val : Dec) (n : Nat) (g : Dec) :
    Params.Validate ⟨b, ⟨none⟩, val, n, g⟩ = .ok (some .nilParameter) := rfl

theorem Validate_some (b : Bool) (x y : Int) (n : Nat) (g : Dec) :
    Params.Validate ⟨b, ⟨some x⟩, ⟨some y⟩, n, g⟩ =
      if x < 0 then .ok (some (.negativeShares (.dec ⟨some x⟩)))
      else if 10 ^ 18 < x then .ok (some (.greaterThanOne (.dec ⟨some x⟩)))
      else if y < 0 then .ok (some (.negativeShares (.dec ⟨some y⟩)))
      else if 10 ^ 18 < y then .ok (some (.greaterThanOne (.dec ⟨some y⟩)))
      else if 10 ^ 18 < x + y then .ok (some (.totalShares ⟨some x⟩ ⟨some y⟩))
      else validateMinGasPrice (.dec g) := by
  simp only [Params.Validate, validateBool, validateUint64, orElse_ok_none,
    validateShares_some]
  by_cases h1 : x < 0
  · simp only [h1, if_true, orElse_ok_some]
  by_cases h2 : (10 : Int) ^ 18 < x
  · simp only [h1, h2, if_true, if_false, orElse_ok_some]
  by_cases h3 : y < 0
  · simp only [h1, h2, h3, if_true, if_false, orElse_ok_some, orElse_ok_none]
  by_cases h4 : (10 : Int) ^ 18 < y
  · simp only [h1, h2, h3, h4, if_true, if_false, orElse_ok_some, orElse_ok_none]
  simp only [h1, h2, h3, h4, if_false, orElse_ok_none]
  rw [Add_of_unit_range x y (not_lt.mp h1) (not_lt.mp h2) (not_lt.mp h3) (not_lt.mp h4)]
  simp only [bind, Except.bind, Dec.GT, OneDec, Precision]
  by_cases h5 : (10 : Int) ^ 18 < x + y
  · simp [h5]
  · simp [h5]

theorem Validate_validator_nil (b : Bool) (x : Int) (n : Nat) (g : Dec) :
    Params.Validate ⟨b, ⟨some x⟩, ⟨none⟩, n, g⟩ =
      if x < 0 then .ok (some (.negativeShares (.dec ⟨some x⟩)))
      else if 10 ^ 18 < x then .ok (some (.greaterThanOne (.dec ⟨some x⟩)))
      else .ok (some .nilParameter) := by
  simp only [Params.Validate, validateBool, validateUint64, orElse_ok_none,
    validateShares_some, validateShares_nil]
  by_cases h1 : x < 0
  · simp only [h1, if_true, orElse_ok_some]
  by_cases h2 : (10 : Int) ^ 18 < x
  · simp only [h1, h2, if_true, if_false, orElse_ok_some]
  simp only [h1, h2, if_false, orElse_ok_some, orElse_ok_none]

theorem value_some (x : Int) : Dec.value ⟨some x⟩ = some ((x : ℚ) / 10 ^ 18) := rfl

theorem value_none : Dec.value ⟨none⟩ = none := rfl

theorem scaled_nonneg_iff (x : Int) : 0 ≤ (x : ℚ) / 10 ^ 18 ↔ 0 ≤ x := by
  rw [le_div_iff₀ (by positivity), zero_mul]
  exact Int.cast_nonneg

theorem scaled_le_one_iff (x : Int) : (x : ℚ) / 10 ^ 18 ≤ 1 ↔ x ≤ 10 ^ 18 := by
  rw [div_le_iff₀ (by positivity), one_mul]
  exact_mod_cast Iff.rfl

theorem scaled_sum_le_one_iff (x y : Int) :
    (x : ℚ) / 10 ^ 18 + (y : ℚ) / 10 ^ 18 ≤ 1 ↔ x + y ≤ 10 ^ 18 := by
  rw [← add_div, div_le_iff₀ (by positivity), one_mul]
  exact_mod_cast Iff.rfl

/-! ## Acceptance conditions -/

/-- C1: `Params.Validate` returns no error exactly when the developer and
validator shares are non-nil decimals of `[0, 1]` whose sum is at most 1 and
the minimum gas price is a non-nil decimal that is not negative. -/
theorem Validate_ok_iff (p : Params) :
    p.Validate = .ok none ↔
      ∃ dev val mgp : ℚ,
        p.DeveloperShares.IsNil = false ∧ p.DeveloperShares.value = some dev ∧
        0 ≤ dev ∧ dev ≤ 1 ∧
        p.ValidatorShares.IsNil = false ∧ p.ValidatorShares.value = some val ∧
        0 ≤ val ∧ val ≤ 1 ∧
        dev + val ≤ 1 ∧
        p.MinGasPrice.IsNil = false ∧ p.MinGasPrice.value = some mgp ∧ 0 ≤ mgp := by
  obtain ⟨b, ⟨dev⟩, ⟨val⟩, n, ⟨g⟩⟩ := p
  cases dev with
  | none => simp [Validate_developer_nil, value_none]
  | some x =>
    cases val with
    | none =>
      rw [Validate_validator_nil]
      simp only [value_none]
      constructor
      · intro h
        split_ifs at h <;> cases h
      · rintro ⟨dv, vl, mg, h⟩
        simp [Dec.IsNil] at h
    | some y =>
      rw [Validate_some]
      cases g with
      | none =>
        rw [validateMinGasPrice_nil]
        simp only [value_none]
        constructor
        · intro h
          split_ifs at h <;> cases h
        · rintro ⟨dv, vl, mg, h⟩
          simp [Dec.IsNil] at h
      | some z =>
        rw [validateMinGasPrice_some]
        simp only [value_some]
        constructor
        · intro h
          split_ifs at h with h1 h2 h3 h4 h5 h6 <;> cases h
          refine ⟨_, _, _, rfl, rfl, ?_, ?_, rfl, rfl, ?_, ?_, ?_, rfl, rfl, ?_⟩
          · exact (scaled_nonneg_iff x).mpr (not_lt.mp h1)
          · exact (scaled_le_one_iff x).mpr (not_lt.mp h2)
          · exact (scaled_nonneg_iff y).mpr (not_lt.mp h3)
          · exact (scaled_le_one_iff y).mpr (not_lt.mp h4)
          · exact (scaled_sum_le_one_iff x y).mpr (not_lt.mp h5)
          · exact (scaled_nonneg_iff z).mpr (not_lt.mp h6)
        · rintro ⟨dv, vl, mg, -, hd, hd0, hd1, -, hv, hv0, hv1, hs, -, hm, hm0⟩
          simp only [Option.some.injEq] at hd hv hm
          subst hd hv hm
          rw [if_neg (not_lt.mpr ((scaled_nonneg_iff x).mp hd0)),
            if_neg (not_lt.mpr ((scaled_le_one_iff x).mp hd1)),
            if_neg (not_lt.mpr ((scaled_nonneg_iff y).mp hv0)),
            if_neg (not_lt.mpr ((scaled_le_one_iff y).mp hv1)),
            if_neg (not_lt.mpr ((scaled_sum_le_one_iff x y).mp hs)),
            if_neg (not_lt.mpr ((scaled_nonneg_iff z).mp hm0))]

/-- C2: on a non-nil decimal `validateShares` returns no error exactly when
the decimal lies in `[0, 1]`; the two bounds 0 and 1 are accepted. -/
theorem validateShares_ok_iff (d : Dec) (hd : d.IsNil = false) :
    (validateShares (.dec d) = .ok none ↔
      ∃ q : ℚ, d.value = some q ∧ 0 ≤ q ∧ q ≤ 1) ∧
    (ZeroDec.value = some 0 ∧ validateShares (.dec ZeroDec) = .ok none) ∧
    (OneDec.value = some 1 ∧ validateShares (.dec OneDec) = .ok none) := by
  refine ⟨?_, ⟨?_, by decide⟩, ⟨?_, by decide⟩⟩
  · obtain ⟨i⟩ := d
    cases i with
    | none => simp [Dec.IsNil] at hd
    | some x =>
      rw [validateShares_some]
      simp only [value_some]
      constructor
      · intro h
        split_ifs at h with h1 h2 <;> cases h
        exact ⟨_, rfl, (scaled_nonneg_iff x).mpr (not_lt.mp h1),
          (scaled_le_one_iff x).mpr (not_lt.mp h2)⟩
      · rintro ⟨q, hq, h0, h1⟩
        simp only [Option.some.injEq] at hq
        subst hq
        rw [if_neg (not_lt.mpr ((scaled_nonneg_iff x).mp h0)),
          if_neg (not_lt.mpr ((scaled_le_one_iff x).mp h1))]
  · simp [ZeroDec, value_some]
  · simp only [OneDec, value_some, Precision]
    norm_num

theorem validateShares_ok_iff_witness :
    (⟨some (5 * 10 ^ 17)⟩ : Dec).IsNil = false ∧
    ((validateShares (.dec ⟨some (5 * 10 ^ 17)⟩) = .ok none ↔
      ∃ q : ℚ, (⟨some (5 * 10 ^ 17)⟩ : Dec).value = some q ∧ 0 ≤ q ∧ q ≤ 1) ∧
    (ZeroDec.value = some 0 ∧ validateShares (.dec ZeroDec) = .ok none) ∧
    (OneDec.value = some 1 ∧ validateShares (.dec OneDec) = .ok none)) :=
  ⟨by decide, validateShares_ok_iff ⟨some (5 * 10 ^ 17)⟩ (by decide)⟩

/-- C3: `validateMinGasPrice` returns no error on a decimal exactly when the
decimal is non-nil and not negative; accepted values exceed every bound. -/
theorem validateMinGasPrice_ok_iff (d : Dec) :
    (validateMinGasPrice (.dec d) = .ok none ↔
      d.IsNil = false ∧ ∃ q : ℚ, d.value = some q ∧ 0 ≤ q) ∧
    (∀ bound : ℚ, ∃ big : Dec, validateMinGasPrice (.dec big) = .ok none ∧
      ∃ q : ℚ, big.value = some q ∧ bound < q) := by
  constructor
  · obtain ⟨i⟩ := d
    cases i with
    | none => simp [validateMinGasPrice_nil, Dec.IsNil]
    | some x =>
      rw [validateMinGasPrice_some]
      simp only [value_some]
      constructor
      · intro h
        split_ifs at h with h1 <;> cases h
        exact ⟨rfl, _, rfl, (scaled_nonneg_iff x).mpr (not_lt.mp h1)⟩
      · rintro ⟨-, q, hq, h0⟩
        simp only [Option.some.injEq] at hq
        subst hq
        rw [if_neg (not_lt.mpr ((scaled_nonneg_iff x).mp h0))]
  · intro bound
    refine ⟨⟨some (((⌈bound⌉₊ + 1 : Nat) : Int) * 10 ^ 18)⟩, ?_, _, value_some _, ?_⟩
    · rw [validateMinGasPrice_some, if_neg]
      exact not_lt.mpr (by positivity)
    · have h1 : bound ≤ (⌈bound⌉₊ : ℚ) := Nat.le_ceil bound
      have h2 : (((((⌈bound⌉₊ + 1 : Nat) : Int) * 10 ^ 18 : Int) : ℚ)) / 10 ^ 18
          = (⌈bound⌉₊ : ℚ) + 1 := by
        push_cast
        norm_num
      rw [h2]
      linarith

/-- C4, as stated, fails: with both shares equal to 0.3 (each accepted by
`validateShares`, sum 0.6) and a minimum gas price of -1, the sum is at most 1
and yet `Params.Validate` returns the negative-gas-price error. -/
theorem Validate_shares_only_counterexample :
    validateShares (.dec (NewDecWithPrec 3 1 (by decide))) = .ok none ∧
    (∃ dev val : ℚ, (NewDecWithPrec 3 1 (by decide)).value = some dev ∧
      (NewDecWithPrec 3 1 (by decide)).value = some val ∧ dev + val ≤ 1) ∧
    (NewParams true (NewDecWithPrec 3 1 (by decide)) (NewDecWithPrec 3 1 (by decide)) 50
        (NewDecWithPrec (-1) 0 (by decide))).Validate
      = .ok (some (.negativeMinGasPrice (.dec (NewDecWithPrec (-1) 0 (by decide))))) ∧
    ¬ ((NewParams true (NewDecWithPrec 3 1 (by decide)) (NewDecWithPrec 3 1 (by decide)) 50
        (NewDecWithPrec (-1) 0 (by decide))).Validate = .ok none ↔
      ∃ dev val : ℚ, (NewDecWithPrec 3 1 (by decide)).value = some dev ∧
        (NewDecWithPrec 3 1 (by decide)).value = some val ∧ dev + val ≤ 1) := by
  have hsum : ∃ dev val : ℚ, (NewDecWithPrec 3 1 (by decide)).value = some dev ∧
      (NewDecWithPrec 3 1 (by decide)).value = some val ∧ dev + val ≤ 1 := by
    refine ⟨_, _, rfl, rfl, ?_⟩
    simp only [precisionMultiplier, Precision]
    norm_num
  refine ⟨by decide, hsum, by decide, ?_⟩
  intro h
  have hv := h.mpr hsum
  revert hv
  decide

/-- C4, amended: when the developer and validator shares are each accepted by
`validateShares` and the minimum gas price is accepted by
`validateMinGasPrice`, `Params.Validate` succeeds exactly when the sum of the
two shares is at most 1. -/
theorem Validate_ok_iff_total (p : Params)
    (hdev : validateShares (.dec p.DeveloperShares) = .ok none)
    (hval : validateShares (.dec p.ValidatorShares) = .ok none)
    (hmgp : validateMinGasPrice (.dec p.MinGasPrice) = .ok none) :
    p.Validate = .ok none ↔
      ∃ dev val : ℚ, p.DeveloperShares.value = some dev ∧
        p.ValidatorShares.value = some val ∧ dev + val ≤ 1 := by
  obtain ⟨b, ⟨dev⟩, ⟨val⟩, n, g⟩ := p
  cases dev with
  | none => cases hdev
  | some x =>
    cases val with
    | none => cases hval
    | some y =>
      simp only at hdev hval hmgp
      rw [validateShares_some] at hdev hval
      rw [Validate_some, hmgp]
      simp only [value_some]
      split_ifs at hdev with h1 h2 <;> cases hdev
      split_ifs at hval with h3 h4 <;> cases hval
      rw [if_neg h1, if_neg h2, if_neg h3, if_neg h4]
      constructor
      · intro h
        split_ifs at h with h5 <;> cases h
        exact ⟨_, _, rfl, rfl, (scaled_sum_le_one_iff x y).mpr (not_lt.mp h5)⟩
      · rintro ⟨dv, vl, hd, hv, hs⟩
        simp only [Option.some.injEq] at hd hv
        subst hd hv
        rw [if_neg (not_lt.mpr ((scaled_sum_le_one_iff x y).mp hs))]

theorem Validate_ok_iff_total_witness :
    validateShares (.dec (NewParams true (NewDecWithPrec 6 1 (by decide))
      (NewDecWithPrec 5 1 (by decide)) 50 ZeroDec).DeveloperShares) = .ok none ∧
    validateShares (.dec (NewParams true (NewDecWithPrec 6 1 (by decide))
      (NewDecWithPrec 5 1 (by decide)) 50 ZeroDec).ValidatorShares) = .ok none ∧
    validateMinGasPrice (.dec (NewParams true (NewDecWithPrec 6 1 (by decide))
      (NewDecWithPrec 5 1 (by decide)) 50 ZeroDec).MinGasPrice) = .ok none ∧
    ((NewParams true (NewDecWithPrec 6 1 (by decide))
        (NewDecWithPrec 5 1 (by decide)) 50 ZeroDec).Validate = .ok none ↔
      ∃ dev val : ℚ,
        (NewParams true (NewDecWithPrec 6 1 (by decide))
          (NewDecWithPrec 5 1 (by decide)) 50 ZeroDec).DeveloperShares.value = some dev ∧
        (NewParams true (NewDecWithPrec 6 1 (by decide))
          (NewDecWithPrec 5 1 (by decide)) 50 ZeroDec).ValidatorShares.value = some val ∧
        dev + val ≤ 1) :=
  ⟨by decide, by decide, by decide,
    Validate_ok_iff_total _ (by decide) (by decide) (by decide)⟩

/-- C5: the default parameter set passes `Params.Validate`; its shares are
0.5 and 0.5, whose sum 1 does not exceed 1, and its minimum gas price is 0. -/
theorem DefaultParams_valid :
    DefaultParams.Validate = .ok none ∧
    (∃ dev val mgp : ℚ, DefaultParams.DeveloperShares.value = some dev ∧
      DefaultParams.ValidatorShares.value = some val ∧
      DefaultParams.MinGasPrice.value = some mgp ∧
      dev + val = 1 ∧ ¬ (1 < dev + val) ∧ 0 ≤ mgp) := by
  refine ⟨by decide, _, _, _, rfl, rfl, rfl, ?_, ?_, ?_⟩ <;>
    simp only [precisionMultiplier, Precision] <;> norm_num

/-! ## Order of the checks and classification of the errors -/

theorem totalSharesCheck_some (b : Bool) (x y : Int) (n : Nat) (g : Dec)
    (hx0 : 0 ≤ x) (hx1 : x ≤ 10 ^ 18) (hy0 : 0 ≤ y) (hy1 : y ≤ 10 ^ 18) :
    totalSharesCheck ⟨b, ⟨some x⟩, ⟨some y⟩, n, g⟩ =
      if 10 ^ 18 < x + y then .ok (some (.totalShares ⟨some x⟩ ⟨some y⟩))
      else .ok none := by
  simp only [totalSharesCheck]
  rw [Add_of_unit_range x y hx0 hx1 hy0 hy1]
  simp only [bind, Except.bind, Dec.GT, OneDec, Precision]
  by_cases h5 : (10 : Int) ^ 18 < x + y
  · simp [h5]
  · simp [h5]

theorem firstFailingCheck_ok_none (rest : List Run) :
    firstFailingCheck (.ok none :: rest) = firstFailingCheck rest := rfl

theorem firstFailingCheck_ok_some (e : Err) (rest : List Run) :
    firstFailingCheck (.ok (some e) :: rest) = .ok (some e) := rfl

theorem firstFailingCheck_nil : firstFailingCheck [] = .ok none := rfl

theorem Validate_eq_firstFailingCheck (p : Params) :
    p.Validate = firstFailingCheck
      [ validateShares (.dec p.DeveloperShares), validateShares (.dec p.ValidatorShares),
        totalSharesCheck p, validateMinGasPrice (.dec p.MinGasPrice) ] := by
  obtain ⟨b, ⟨dev⟩, ⟨val⟩, n, g⟩ := p
  cases dev with
  | none => rfl
  | some x =>
    cases val with
    | none =>
      rw [Validate_validator_nil]
      simp only [validateShares_some, validateShares_nil]
      by_cases h1 : x < 0
      · simp only [h1, if_true, firstFailingCheck_ok_some]
      by_cases h2 : (10 : Int) ^ 18 < x
      · simp only [h1, h2, if_true, if_false, firstFailingCheck_ok_some]
      simp only [h1, h2, if_false, firstFailingCheck_ok_some, firstFailingCheck_ok_none]
    | some y =>
      rw [Validate_some]
      simp only [validateShares_some]
      by_cases h1 : x < 0
      · simp only [h1, if_true, firstFailingCheck_ok_some]
      by_cases h2 : (10 : Int) ^ 18 < x
      · simp only [h1, h2, if_true, if_false, firstFailingCheck_ok_some]
      by_cases h3 : y < 0
      · simp only [h1, h2, h3, if_true, if_false, firstFailingCheck_ok_some,
          firstFailingCheck_ok_none]
      by_cases h4 : (10 : Int) ^ 18 < y
      · simp only [h1, h2, h3, h4, if_true, if_false, firstFailingCheck_ok_some,
          firstFailingCheck_ok_none]
      simp only [h1, h2, h3, h4, if_false, firstFailingCheck_ok_none]
      rw [totalSharesCheck_some b x y n g (not_lt.mp h1) (not_lt.mp h2) (not_lt.mp h3)
        (not_lt.mp h4)]
      by_cases h5 : (10 : Int) ^ 18 < x + y
      · simp only [h5, if_true, firstFailingCheck_ok_some]
      simp only [h5, if_false, firstFailingCheck_ok_none]
      cases hg : validateMinGasPrice (.dec g) with
      | error e => rfl
      | ok r =>
        cases r with
        | none => rfl
        | some e => rfl

theorem Validate_developer_negative (b : Bool) (x : Int) (val : Dec) (n : Nat) (g : Dec)
    (hx : x < 0) :
    Params.Validate ⟨b, ⟨some x⟩, val, n, g⟩ =
      .ok (some (.negativeShares (.dec ⟨some x⟩))) := by
  obtain ⟨v⟩ := val
  cases v with
  | none => rw [Validate_validator_nil, if_pos hx]
  | some y => rw [Validate_some, if_pos hx]

/-- C6: `Params.Validate` returns the outcome of the first failing check in
the order developer share, validator share, combined bound, minimum gas price.
A developer share of -0.1 yields the negative-share error whatever the other
fields hold, and valid shares whose sum exceeds 1 yield the total-shares error
even when the minimum gas price is negative. -/
theorem Validate_fail_fast (p : Params) :
    p.Validate = firstFailingCheck
      [ validateShares (.dec p.DeveloperShares), validateShares (.dec p.ValidatorShares),
        totalSharesCheck p, validateMinGasPrice (.dec p.MinGasPrice) ] ∧
    (p.DeveloperShares.value = some (-1 / 10) →
      p.Validate = .ok (some (.negativeShares (.dec p.DeveloperShares)))) ∧
    (∀ dev val mgp : ℚ,
      validateShares (.dec p.DeveloperShares) = .ok none →
      validateShares (.dec p.ValidatorShares) = .ok none →
      p.DeveloperShares.value = some dev → p.ValidatorShares.value = some val →
      1 < dev + val →
      p.MinGasPrice.value = some mgp → mgp < 0 →
      p.Validate = .ok (some (.totalShares p.DeveloperShares p.ValidatorShares)) ∧
      validateMinGasPrice (.dec p.MinGasPrice)
        = .ok (some (.negativeMinGasPrice (.dec p.MinGasPrice)))) := by
  refine ⟨Validate_eq_firstFailingCheck p, ?_, ?_⟩
  · obtain ⟨b, ⟨dev⟩, val, n, g⟩ := p
    cases dev with
    | none => intro h; cases h
    | some x =>
      intro h
      simp only [value_some, Option.some.injEq] at h
      have hneg : ¬ (0 ≤ x) := by
        intro h0
        have := (scaled_nonneg_iff x).mpr h0
        rw [h] at this
        norm_num at this
      exact Validate_developer_negative b x val n g (not_le.mp hneg)
  · intro dv vl mg hdev hval hd hv hsum hm hneg
    obtain ⟨b, ⟨dev⟩, ⟨val⟩, n, ⟨g⟩⟩ := p
    cases dev with
    | none => cases hd
    | some x =>
      cases val with
      | none => cases hv
      | some y =>
        cases g with
        | none => cases hm
        | some z =>
          simp only [value_some, Option.some.injEq] at hd hv hm
          subst hd hv hm
          simp only at hdev hval
          rw [validateShares_some] at hdev hval
          split_ifs at hdev with h1 h2 <;> cases hdev
          split_ifs at hval with h3 h4 <;> cases hval
          have h5 : (10 : Int) ^ 18 < x + y := by
            by_contra hc
            have := (scaled_sum_le_one_iff x y).mpr (not_lt.mp hc)
            linarith
          have h6 : z < 0 := by
            by_contra hc
            have := (scaled_nonneg_iff z).mpr (not_lt.mp hc)
            linarith
          refine ⟨?_, ?_⟩
          · rw [Validate_some, if_neg h1, if_neg h2, if_neg h3, if_neg h4, if_pos h5]
          · rw [validateMinGasPrice_some, if_pos h6]

theorem Validate_fail_fast_witness :
    (NewParams true (NewDecWithPrec (-1) 1 (by decide)) (NewDecWithPrec 5 1 (by decide)) 50
        ZeroDec).Validate
      = .ok (some (.negativeShares (.dec (NewDecWithPrec (-1) 1 (by decide))))) ∧
    (NewParams true (NewDecWithPrec 6 1 (by decide)) (NewDecWithPrec 5 1 (by decide)) 50
        (NewDecWithPrec (-1) 0 (by decide))).Validate
      = .ok (some (.totalShares (NewDecWithPrec 6 1 (by decide))
          (NewDecWithPrec 5 1 (by decide)))) := by
  refine ⟨?_, ?_⟩
  · refine (Validate_fail_fast (NewParams true (NewDecWithPrec (-1) 1 (by decide))
      (NewDecWithPrec 5 1 (by decide)) 50 ZeroDec)).2.1 ?_
    simp only [NewParams, NewDecWithPrec, value_some, precisionMultiplier, Precision]
    norm_num
  · refine ((Validate_fail_fast (NewParams true (NewDecWithPrec 6 1 (by decide))
      (NewDecWithPrec 5 1 (by decide)) 50 (NewDecWithPrec (-1) 0 (by decide)))).2.2
      (6 / 10) (5 / 10) (-1) (by decide) (by decide) ?_ ?_ (by norm_num) ?_
      (by norm_num)).1 <;>
    · simp only [NewParams, NewDecWithPrec, value_some, precisionMultiplier, Precision]
      norm_num

/-- C7: `validateShares` yields exactly one of five outcomes: the type error
iff the input is not a decimal, the nil error iff it is a nil decimal, the
negative error iff it is a decimal below 0, the greater-than-one error iff it
is a decimal above 1, success otherwise. `Params.Validate` on a parameter set
whose developer share is nil returns the nil error. -/
theorem validateShares_classification (i : GoValue) (p : Params)
    (hnil : p.DeveloperShares.IsNil = true) :
    (validateShares i = .ok (some (.invalidType i)) ↔ ∀ d : Dec, i ≠ .dec d) ∧
    (validateShares i = .ok (some .nilParameter) ↔
      ∃ d : Dec, i = .dec d ∧ d.IsNil = true) ∧
    (validateShares i = .ok (some (.negativeShares i)) ↔
      ∃ (d : Dec) (q : ℚ), i = .dec d ∧ d.value = some q ∧ q < 0) ∧
    (validateShares i = .ok (some (.greaterThanOne i)) ↔
      ∃ (d : Dec) (q : ℚ), i = .dec d ∧ d.value = some q ∧ 1 < q) ∧
    (validateShares i = .ok none ↔
      ∃ (d : Dec) (q : ℚ), i = .dec d ∧ d.value = some q ∧ 0 ≤ q ∧ q ≤ 1) ∧
    validateShares i ∈ sharesOutcomes i ∧ (sharesOutcomes i).Nodup ∧
    p.Validate = .ok (some .nilParameter) := by
  have hlast : p.Validate = .ok (some .nilParameter) := by
    obtain ⟨b, ⟨dev⟩, val, n, g⟩ := p
    cases dev with
    | none => rfl
    | some x => simp [Dec.IsNil] at hnil
  have hnodup : (sharesOutcomes i).Nodup := by
    simp [sharesOutcomes]
  refine ⟨?_, ?_, ?_, ?_, ?_, ?_, hnodup, hlast⟩
  all_goals
    cases i with
    | dec d =>
      obtain ⟨v⟩ := d
      cases v with
      | none => simp [validateShares_nil, sharesOutcomes, Dec.IsNil, value_none]
      | some x =>
        have e1 := scaled_nonneg_iff x
        have e2 := scaled_le_one_iff x
        rw [validateShares_some]
        by_cases h1 : x < 0
        · have q1 : (x : ℚ) / 10 ^ 18 < 0 := by
            rw [← not_le, e1]; exact not_le.mpr h1
          have q2 : ¬ (1 < (x : ℚ) / 10 ^ 18) := by linarith
          have q3 : ¬ (0 ≤ (x : ℚ) / 10 ^ 18) := by linarith
          rw [if_pos h1]
          simp [sharesOutcomes, Dec.IsNil, value_some, q1, q2, q3]
        · by_cases h2 : (10 : Int) ^ 18 < x
          · have q1 : 1 < (x : ℚ) / 10 ^ 18 := by
              rw [← not_le, e2]; exact not_le.mpr h2
            have q2 : ¬ ((x : ℚ) / 10 ^ 18 < 0) := by linarith
            have q3 : ¬ ((x : ℚ) / 10 ^ 18 ≤ 1) := by linarith
            rw [if_neg h1, if_pos h2]
            simp [sharesOutcomes, Dec.IsNil, value_some, q1, q2, q3]
          · have q1 : 0 ≤ (x : ℚ) / 10 ^ 18 := e1.mpr (not_lt.mp h1)
            have q2 : (x : ℚ) / 10 ^ 18 ≤ 1 := e2.mpr (not_lt.mp h2)
            have q3 : ¬ ((x : ℚ) / 10 ^ 18 < 0) := by linarith
            have q4 : ¬ (1 < (x : ℚ) / 10 ^ 18) := by linarith
            rw [if_neg h1, if_neg h2]
            simp [sharesOutcomes, Dec.IsNil, value_some, q1, q2, q3, q4]
    | _ => simp [validateShares, sharesOutcomes]

theorem validateShares_classification_witness :
    (NewParams true ⟨none⟩ (NewDecWithPrec 5 1 (by decide)) 50 ZeroDec).DeveloperShares.IsNil
      = true ∧
    validateShares (.dec (NewDecWithPrec 12 1 (by decide)))
      ∈ sharesOutcomes (.dec (NewDecWithPrec 12 1 (by decide))) ∧
    (NewParams true ⟨none⟩ (NewDecWithPrec 5 1 (by decide)) 50 ZeroDec).Validate
      = .ok (some .nilParameter) :=
  ⟨by decide,
    (validateShares_classification (.dec (NewDecWithPrec 12 1 (by decide)))
      (NewParams true ⟨none⟩ (NewDecWithPrec 5 1 (by decide)) 50 ZeroDec)
      (by decide)).2.2.2.2.2.1,
    (validateShares_classification (.dec (NewDecWithPrec 12 1 (by decide)))
      (NewParams true ⟨none⟩ (NewDecWithPrec 5 1 (by decide)) 50 ZeroDec)
      (by decide)).2.2.2.2.2.2.2⟩

/-! ## Registration, independence, defaults -/

/-- C8: `ParamSetPairs` returns five pairs, in the order `EnableFees`,
`DeveloperShares`, `ValidatorShares`, `AddrDerivationCostCreate`,
`MinGasPrice`, with pairwise distinct keys; every field of `Params` is pointed
to by exactly one pair, the validators are `validateBool`, `validateShares`,
`validateShares`, `validateUint64`, `validateMinGasPrice`, and on a value of
its own field no validator panics or reports an invalid type. -/
theorem ParamSetPairs_spec (p : Params) :
    p.ParamSetPairs.length = 5 ∧
    p.ParamSetPairs.map (fun pair => pair.Key) =
      ["EnableFees", "DeveloperShares", "ValidatorShares", "AddrDerivationCostCreate",
        "MinGasPrice"] ∧
    (p.ParamSetPairs.map (fun pair => pair.Key)).Nodup ∧
    p.ParamSetPairs.map (fun pair => pair.Value) =
      [.EnableFees, .DeveloperShares, .ValidatorShares, .AddrDerivationCostCreate,
        .MinGasPrice] ∧
    (∀ f : FieldPtr, (p.ParamSetPairs.map (fun pair => pair.Value)).count f = 1) ∧
    p.ParamSetPairs.map (fun pair => pair.ValidatorFn) =
      [validateBool, validateShares, validateShares, validateUint64, validateMinGasPrice] ∧
    (∀ pair ∈ p.ParamSetPairs, ∀ q : Params,
      (∀ c : GoPanic, pair.ValidatorFn (pair.Value.deref q) ≠ .error c) ∧
      (∀ v : GoValue, pair.ValidatorFn (pair.Value.deref q) ≠ .ok (some (.invalidType v)))) := by
  have hkeys : p.ParamSetPairs.map (fun pair => pair.Key) =
      ["EnableFees", "DeveloperShares", "ValidatorShares", "AddrDerivationCostCreate",
        "MinGasPrice"] := rfl
  have hptrs : p.ParamSetPairs.map (fun pair => pair.Value) =
      [.EnableFees, .DeveloperShares, .ValidatorShares, .AddrDerivationCostCreate,
        .MinGasPrice] := rfl
  refine ⟨rfl, hkeys, ?_, hptrs, ?_, rfl, ?_⟩
  · rw [hkeys]
    decide
  · intro f
    rw [hptrs]
    cases f <;> decide
  · intro pair hpair q
    simp only [Params.ParamSetPairs, NewParamSetPair, List.mem_cons, List.mem_singleton,
      List.not_mem_nil, or_false] at hpair
    obtain ⟨b, ⟨dev⟩, ⟨val⟩, n, ⟨g⟩⟩ := q
    rcases hpair with h | h | h | h | h <;> subst h
    · simp [FieldPtr.deref, validateBool]
    · cases dev with
      | none => simp [FieldPtr.deref, validateShares_nil]
      | some x =>
        simp only [FieldPtr.deref, validateShares_some]
        constructor <;> intro c <;> split_ifs <;> simp
    · cases val with
      | none => simp [FieldPtr.deref, validateShares_nil]
      | some x =>
        simp only [FieldPtr.deref, validateShares_some]
        constructor <;> intro c <;> split_ifs <;> simp
    · simp [FieldPtr.deref, validateUint64]
    · cases g with
      | none => simp [FieldPtr.deref, validateMinGasPrice_nil]
      | some x =>
        simp only [FieldPtr.deref, validateMinGasPrice_some]
        constructor <;> intro c <;> split_ifs <;> simp

/-- C9: `Params.Validate` gives the same result on two parameter sets that
agree on `DeveloperShares`, `ValidatorShares` and `MinGasPrice`, whatever
their `EnableFees` and `AddrDerivationCostCreate`. -/
theorem Validate_independent (p q : Params)
    (hdev : p.DeveloperShares = q.DeveloperShares)
    (hval : p.ValidatorShares = q.ValidatorShares)
    (hmgp : p.MinGasPrice = q.MinGasPrice) :
    p.Validate = q.Validate := by
  obtain ⟨b, dev, val, n, g⟩ := p
  obtain ⟨b', dev', val', n', g'⟩ := q
  simp only at hdev hval hmgp
  subst hdev hval hmgp
  simp only [Params.Validate, validateBool, validateUint64]

theorem Validate_independent_witness :
    (NewParams false (NewDecWithPrec 6 1 (by decide)) (NewDecWithPrec 5 1 (by decide)) 0
        ZeroDec).Validate =
    (NewParams true (NewDecWithPrec 6 1 (by decide)) (NewDecWithPrec 5 1 (by decide))
        (2 ^ 64 - 1) ZeroDec).Validate :=
  Validate_independent _ _ rfl rfl rfl

/-- C10: `DefaultParams` is the parameter set with `EnableFees = false`,
both shares 0.50, `AddrDerivationCostCreate = 50` and `MinGasPrice = 0`, the
one `NewParams` builds from these values. -/
theorem DefaultParams_eq :
    DefaultParams =
      NewParams false (NewDecWithPrec 50 2 (by decide)) (NewDecWithPrec 50 2 (by decide)) 50
        ZeroDec ∧
    DefaultParams.EnableFees = false ∧
    DefaultParams.DeveloperShares.value = some (50 / 100) ∧
    DefaultParams.ValidatorShares.value = some (50 / 100) ∧
    DefaultParams.AddrDerivationCostCreate = 50 ∧
    DefaultParams.MinGasPrice.value = some 0 := by
  refine ⟨rfl, rfl, ?_, ?_, rfl, ?_⟩
  · simp only [DefaultParams, DefaultDeveloperShares, NewDecWithPrec, value_some,
      precisionMultiplier, Precision]
    norm_num
  · simp only [DefaultParams, DefaultValidatorShares, NewDecWithPrec, value_some,
      precisionMultiplier, Precision]
    norm_num
  · simp [DefaultParams, DefaultMinGasPrice, ZeroDec, value_some]

/-! ## Construction, type errors, totality, closure -/

theorem Validate_accepts_scaled (p : Params) :
    p.Validate = .ok none ↔
      ∃ x y z : Int, p.DeveloperShares = ⟨some x⟩ ∧ p.ValidatorShares = ⟨some y⟩ ∧
        p.MinGasPrice = ⟨some z⟩ ∧
        0 ≤ x ∧ x ≤ 10 ^ 18 ∧ 0 ≤ y ∧ y ≤ 10 ^ 18 ∧ x + y ≤ 10 ^ 18 ∧ 0 ≤ z := by
  obtain ⟨b, ⟨dev⟩, ⟨val⟩, n, ⟨g⟩⟩ := p
  cases dev with
  | none => simp [Validate_developer_nil]
  | some x =>
    cases val with
    | none =>
      rw [Validate_validator_nil]
      constructor
      · intro h
        split_ifs at h <;> cases h
      · rintro ⟨x', y', z', -, h, -⟩
        simp at h
    | some y =>
      rw [Validate_some]
      cases g with
      | none =>
        rw [validateMinGasPrice_nil]
        constructor
        · intro h
          split_ifs at h <;> cases h
        · rintro ⟨x', y', z', -, -, h, -⟩
          simp at h
      | some z =>
        rw [validateMinGasPrice_some]
        constructor
        · intro h
          split_ifs at h with h1 h2 h3 h4 h5 h6 <;> cases h
          exact ⟨x, y, z, rfl, rfl, rfl, not_lt.mp h1, not_lt.mp h2, not_lt.mp h3,
            not_lt.mp h4, not_lt.mp h5, not_lt.mp h6⟩
        · rintro ⟨x', y', z', hx, hy, hz, h1, h2, h3, h4, h5, h6⟩
          simp only [Dec.mk.injEq, Option.some.injEq] at hx hy hz
          subst hx hy hz
          rw [if_neg (not_lt.mpr h1), if_neg (not_lt.mpr h2), if_neg (not_lt.mpr h3),
            if_neg (not_lt.mpr h4), if_neg (not_lt.mpr h5), if_neg (not_lt.mpr h6)]

theorem value_eq_some_iff (d : Dec) (q : ℚ) :
    d.value = some q ↔ ∃ x : Int, d = ⟨some x⟩ ∧ q = (x : ℚ) / 10 ^ 18 := by
  obtain ⟨i⟩ := d
  cases i with
  | none => simp [value_none]
  | some x =>
    rw [value_some]
    constructor
    · intro h
      exact ⟨x, rfl, (Option.some.inj h).symm⟩
    · rintro ⟨x', hx, hq⟩
      simp only [Dec.mk.injEq, Option.some.injEq] at hx
      subst hx
      rw [hq]

theorem Validate_accepts_SpecValid (p : Params) : p.Validate = .ok none ↔ SpecValid p := by
  rw [Validate_accepts_scaled]
  constructor
  · rintro ⟨x, y, z, hx, hy, hz, h1, h2, h3, h4, h5, h6⟩
    refine ⟨_, _, _, ?_, ?_, ?_, (scaled_nonneg_iff x).mpr h1, (scaled_le_one_iff x).mpr h2,
      (scaled_nonneg_iff y).mpr h3, (scaled_le_one_iff y).mpr h4,
      (scaled_sum_le_one_iff x y).mpr h5, (scaled_nonneg_iff z).mpr h6⟩
    · rw [hx]; rfl
    · rw [hy]; rfl
    · rw [hz]; rfl
  · rintro ⟨dv, vl, mg, hd, hv, hm, h1, h2, h3, h4, h5, h6⟩
    obtain ⟨x, hx, rfl⟩ := (value_eq_some_iff _ _).mp hd
    obtain ⟨y, hy, rfl⟩ := (value_eq_some_iff _ _).mp hv
    obtain ⟨z, hz, rfl⟩ := (value_eq_some_iff _ _).mp hm
    exact ⟨x, y, z, hx, hy, hz, (scaled_nonneg_iff x).mp h1, (scaled_le_one_iff x).mp h2,
      (scaled_nonneg_iff y).mp h3, (scaled_le_one_iff y).mp h4,
      (scaled_sum_le_one_iff x y).mp h5, (scaled_nonneg_iff z).mp h6⟩

theorem validateShares_returns (i : GoValue) : ∃ r : GoError, validateShares i = .ok r := by
  cases i with
  | dec d =>
    obtain ⟨v⟩ := d
    cases v with
    | none => exact ⟨_, rfl⟩
    | some x =>
      rw [validateShares_some]
      split_ifs <;> exact ⟨_, rfl⟩
  | _ => exact ⟨_, rfl⟩

theorem validateMinGasPrice_returns (i : GoValue) :
    ∃ r : GoError, validateMinGasPrice i = .ok r := by
  cases i with
  | dec d =>
    obtain ⟨v⟩ := d
    cases v with
    | none => exact ⟨_, rfl⟩
    | some x =>
      rw [validateMinGasPrice_some]
      split_ifs <;> exact ⟨_, rfl⟩
  | _ => exact ⟨_, rfl⟩

theorem Validate_returns (p : Params) : ∃ r : GoError, p.Validate = .ok r := by
  obtain ⟨b, ⟨dev⟩, ⟨val⟩, n, g⟩ := p
  cases dev with
  | none => exact ⟨_, rfl⟩
  | some x =>
    cases val with
    | none =>
      rw [Validate_validator_nil]
      split_ifs <;> exact ⟨_, rfl⟩
    | some y =>
      rw [Validate_some]
      split_ifs
      all_goals first
        | exact ⟨_, rfl⟩
        | exact validateMinGasPrice_returns _

/-- C11: `NewParams` validates nothing: for all arguments, invalid ones
included, it returns the parameter set whose five fields are the five
arguments in order, so `Validate` on the result rejects exactly the argument
tuples that break the invariants of the data model. -/
theorem NewParams_no_validation (a : Bool) (b c : Dec) (d : Nat) (e : Dec) :
    NewParams a b c d e = ⟨a, b, c, d, e⟩ ∧
    (NewParams a b c d e).EnableFees = a ∧
    (NewParams a b c d e).DeveloperShares = b ∧
    (NewParams a b c d e).ValidatorShares = c ∧
    (NewParams a b c d e).AddrDerivationCostCreate = d ∧
    (NewParams a b c d e).MinGasPrice = e ∧
    ((NewParams a b c d e).Validate = .ok none ↔ SpecValid ⟨a, b, c, d, e⟩) ∧
    ((∃ err : Err, (NewParams a b c d e).Validate = .ok (some err)) ↔
      ¬ SpecValid ⟨a, b, c, d, e⟩) ∧
    (NewParams a ⟨none⟩ c d e).DeveloperShares = ⟨none⟩ ∧
    (NewParams a ⟨none⟩ c d e).Validate = .ok (some .nilParameter) ∧
    (NewParams a (NewDecWithPrec (-1) 1 (by decide)) c d e).Validate
      = .ok (some (.negativeShares (.dec (NewDecWithPrec (-1) 1 (by decide))))) ∧
    (NewParams a (NewDecWithPrec 6 1 (by decide)) (NewDecWithPrec 5 1 (by decide)) d
        ZeroDec).Validate
      = .ok (some (.totalShares (NewDecWithPrec 6 1 (by decide))
          (NewDecWithPrec 5 1 (by decide)))) ∧
    (NewParams a (NewDecWithPrec 3 1 (by decide)) (NewDecWithPrec 3 1 (by decide)) d
        (NewDecWithPrec (-1) 0 (by decide))).Validate
      = .ok (some (.negativeMinGasPrice (.dec (NewDecWithPrec (-1) 0 (by decide))))) := by
  have hiff := Validate_accepts_SpecValid ⟨a, b, c, d, e⟩
  refine ⟨rfl, rfl, rfl, rfl, rfl, rfl, hiff, ?_, rfl, rfl, ?_, ?_, ?_⟩
  · rw [← hiff]
    show (∃ err : Err, Params.Validate ⟨a, b, c, d, e⟩ = .ok (some err)) ↔ _
    obtain ⟨r, hr⟩ := Validate_returns ⟨a, b, c, d, e⟩
    rw [hr]
    cases r with
    | none => simp
    | some err => simp
  · exact Validate_developer_negative a _ c d e (by decide)
  · rw [NewParams, NewDecWithPrec, NewDecWithPrec, Validate_some]
    decide
  · rw [NewParams, NewDecWithPrec, NewDecWithPrec, Validate_some]
    decide

/-- C12: on every dynamically typed value, `validateBool` fails exactly when
the value is not a boolean and `validateUint64` exactly when it is not a
`uint64`, in both cases with the type error; `validateShares` and
`validateMinGasPrice` return the type error on every value that is not a
decimal. -/
theorem validators_type_error (v : GoValue) :
    ((∃ e : Err, validateBool v = .ok (some e)) ↔ ∀ b : Bool, v ≠ .bool b) ∧
    (validateBool v = .ok (some (.invalidType v)) ↔ ∀ b : Bool, v ≠ .bool b) ∧
    (validateBool v = .ok none ↔ ∃ b : Bool, v = .bool b) ∧
    ((∃ e : Err, validateUint64 v = .ok (some e)) ↔ ∀ n : Nat, v ≠ .uint64 n) ∧
    (validateUint64 v = .ok (some (.invalidType v)) ↔ ∀ n : Nat, v ≠ .uint64 n) ∧
    (validateUint64 v = .ok none ↔ ∃ n : Nat, v = .uint64 n) ∧
    ((∀ d : Dec, v ≠ .dec d) →
      validateShares v = .ok (some (.invalidType v)) ∧
      validateMinGasPrice v = .ok (some (.invalidType v))) ∧
    (Err.invalidType v).Error = "invalid parameter type: " ++ v.typeName := by
  cases v <;> simp [validateBool, validateUint64, validateShares, validateMinGasPrice,
    Err.Error]

theorem validators_type_error_witness :
    (∀ d : Dec, GoValue.string "0.5" ≠ .dec d) ∧
    validateShares (.string "0.5") = .ok (some (.invalidType (.string "0.5"))) ∧
    validateMinGasPrice (.string "0.5") = .ok (some (.invalidType (.string "0.5"))) :=
  ⟨fun _ h => GoValue.noConfusion h,
    (validators_type_error (.string "0.5")).2.2.2.2.2.2.1 (fun _ h => GoValue.noConfusion h)⟩

/-- C13 fails on the code: a parameter set with `AddrDerivationCostCreate = 0`
and otherwise default values passes `Params.Validate`, and `validateUint64`,
the validator registered for the field, accepts every `uint64`, 0 included;
only the default value 50 respects the bound of 36. -/
theorem AddrDerivationCostCreate_unchecked :
    (NewParams false (NewDecWithPrec 50 2 (by decide)) (NewDecWithPrec 50 2 (by decide)) 0
      ZeroDec).Validate = .ok none ∧
    ¬ (36 ≤ (NewParams false (NewDecWithPrec 50 2 (by decide))
      (NewDecWithPrec 50 2 (by decide)) 0 ZeroDec).AddrDerivationCostCreate) ∧
    ((DefaultParams.ParamSetPairs.filter
        fun pair => pair.Key == ParamStoreKeyAddrDerivationCostCreate).map
      fun pair => (pair.Value, pair.ValidatorFn (.uint64 0)))
      = [(.AddrDerivationCostCreate, .ok none)] ∧
    (∀ n : Nat, validateUint64 (.uint64 n) = .ok none) ∧
    36 ≤ DefaultAddrDerivationCostCreate := by
  refine ⟨by decide, by decide, by decide, fun _ => rfl, by decide⟩

theorem mentions_append_right (msg part : String) : mentions (msg ++ part) part = true := by
  simp only [mentions, decide_eq_true_eq, String.data_append]
  exact ⟨msg.data, [], by simp⟩

theorem mentions_append_mid (msg part text rest : String) :
    mentions (msg ++ part ++ text ++ rest) part = true := by
  simp only [mentions, decide_eq_true_eq, String.data_append]
  exact ⟨msg.data, text.data ++ rest.data, by simp⟩

/-- C14 fails on the code for the two share errors: `validateShares` formats
a rejected share with `%T`, so for a developer share of -0.1 the message is
`value cannot be negative: types.Dec`, which holds neither the rendering
`-0.100000000000000000` of the value nor a field name, and likewise for a
share of 1.2; the message is the same for every share. The minimum gas price
error and the total-shares error do contain the rendering of the rejected
decimals. -/
theorem shares_error_names_type_only :
    validateShares (.dec (NewDecWithPrec (-1) 1 (by decide)))
      = .ok (some (.negativeShares (.dec (NewDecWithPrec (-1) 1 (by decide))))) ∧
    (Err.negativeShares (.dec (NewDecWithPrec (-1) 1 (by decide)))).Error
      = "value cannot be negative: types.Dec" ∧
    DecString (NewDecWithPrec (-1) 1 (by decide)) = "-0.100000000000000000" ∧
    mentions (Err.negativeShares (.dec (NewDecWithPrec (-1) 1 (by decide)))).Error
      (DecString (NewDecWithPrec (-1) 1 (by decide))) = false ∧
    mentions (Err.negativeShares (.dec (NewDecWithPrec (-1) 1 (by decide)))).Error
      "0.1" = false ∧
    mentions (Err.negativeShares (.dec (NewDecWithPrec (-1) 1 (by decide)))).Error
      "Shares" = false ∧
    (NewParams true (NewDecWithPrec (-1) 1 (by decide)) (NewDecWithPrec 5 1 (by decide)) 50
        ZeroDec).Validate
      = .ok (some (.negativeShares (.dec (NewDecWithPrec (-1) 1 (by decide))))) ∧
    validateShares (.dec (NewDecWithPrec 12 1 (by decide)))
      = .ok (some (.greaterThanOne (.dec (NewDecWithPrec 12 1 (by decide))))) ∧
    (Err.greaterThanOne (.dec (NewDecWithPrec 12 1 (by decide)))).Error
      = "value cannot be greater than 1: types.Dec" ∧
    DecString (NewDecWithPrec 12 1 (by decide)) = "1.200000000000000000" ∧
    mentions (Err.greaterThanOne (.dec (NewDecWithPrec 12 1 (by decide)))).Error
      "1.2" = false ∧
    mentions (Err.greaterThanOne (.dec (NewDecWithPrec 12 1 (by decide)))).Error
      "Shares" = false ∧
    (∀ d d2 : Dec, (Err.negativeShares (.dec d)).Error = (Err.negativeShares (.dec d2)).Error ∧
      (Err.greaterThanOne (.dec d)).Error = (Err.greaterThanOne (.dec d2)).Error) ∧
    (∀ d : Dec, mentions (Err.negativeMinGasPrice (.dec d)).Error (DecString d) = true) ∧
    (∀ dev val : Dec, mentions (Err.totalShares dev val).Error (DecString dev) = true ∧
      mentions (Err.totalShares dev val).Error (DecString val) = true) ∧
    (Err.negativeMinGasPrice (.dec (NewDecWithPrec (-1) 0 (by decide)))).Error
      = "value cannot be negative: -1.000000000000000000" ∧
    (Err.totalShares (NewDecWithPrec 6 1 (by decide)) (NewDecWithPrec 5 1 (by decide))).Error
      = "total shares cannot be greater than 1: 0.600000000000000000 + 0.500000000000000000" := by
  refine ⟨by decide, by decide, by decide, by decide, by decide, by decide, by decide,
    by decide, by decide, by decide, by decide, by decide, fun _ _ => ⟨rfl, rfl⟩, ?_, ?_,
    by decide, by decide⟩
  · intro d
    exact mentions_append_right _ _
  · intro dev val
    exact ⟨mentions_append_mid _ _ _ _, mentions_append_right _ _⟩

theorem validateShares_ok_scaled (d : Dec) :
    validateShares (.dec d) = .ok none ↔ ∃ x : Int, d = ⟨some x⟩ ∧ 0 ≤ x ∧ x ≤ 10 ^ 18 := by
  obtain ⟨v⟩ := d
  cases v with
  | none => simp [validateShares_nil]
  | some x =>
    rw [validateShares_some]
    constructor
    · intro h
      split_ifs at h with h1 h2 <;> cases h
      exact ⟨x, rfl, not_lt.mp h1, not_lt.mp h2⟩
    · rintro ⟨x', hx, h1, h2⟩
      simp only [Dec.mk.injEq, Option.some.injEq] at hx
      subst hx
      rw [if_neg (not_lt.mpr h1), if_neg (not_lt.mpr h2)]

theorem BitLen_sum_le (x y : Int) (hx0 : 0 ≤ x) (hx1 : x ≤ 10 ^ 18) (hy0 : 0 ≤ y)
    (hy1 : y ≤ 10 ^ 18) : BitLen (x + y) ≤ 61 := by
  rw [BitLen_le_iff]
  norm_num at hx1 hy1 ⊢
  omega

/-- C15: `Params.Validate` returns on every parameter set, nil decimals
included, and never panics. A nil decimal is rejected before `IsNegative` or
`GT` is applied to it; a failing share check ends the validation before the
addition; when the addition is reached both operands are non-nil and in
`[0, 1]`, so the sum lies in `[0, 2]`, is at most 61 bits wide and does not
overflow. -/
theorem Validate_never_panics (p : Params) :
    (∃ r : GoError, p.Validate = .ok r) ∧
    (∀ c : GoPanic, p.Validate ≠ .error c) ∧
    (∃ r : GoError, validateShares (.dec p.DeveloperShares) = .ok r) ∧
    (∃ r : GoError, validateShares (.dec p.ValidatorShares) = .ok r) ∧
    (∃ r : GoError, validateMinGasPrice (.dec p.MinGasPrice) = .ok r) ∧
    (∀ d : Dec, d.IsNil = true →
      d.IsNegative = .error .nilDereference ∧ d.GT OneDec = .error .nilDereference ∧
      validateShares (.dec d) = .ok (some .nilParameter) ∧
      validateMinGasPrice (.dec d) = .ok (some .nilParameter)) ∧
    (∀ e : Err, validateShares (.dec p.DeveloperShares) = .ok (some e) →
      p.Validate = .ok (some e)) ∧
    (∀ e : Err, validateShares (.dec p.DeveloperShares) = .ok none →
      validateShares (.dec p.ValidatorShares) = .ok (some e) → p.Validate = .ok (some e)) ∧
    (validateShares (.dec p.DeveloperShares) = .ok none →
      validateShares (.dec p.ValidatorShares) = .ok none →
      ∃ x y : Int, p.DeveloperShares = ⟨some x⟩ ∧ p.ValidatorShares = ⟨some y⟩ ∧
        0 ≤ x ∧ x ≤ 10 ^ 18 ∧ 0 ≤ y ∧ y ≤ 10 ^ 18 ∧
        p.DeveloperShares.Add p.ValidatorShares = .ok ⟨some (x + y)⟩ ∧
        (∃ q : ℚ, Dec.value ⟨some (x + y)⟩ = some q ∧ 0 ≤ q ∧ q ≤ 2) ∧
        BitLen (x + y) ≤ 61 ∧ 61 ≤ maxDecBitLen ∧
        Dec.GT ⟨some (x + y)⟩ OneDec = .ok (decide (10 ^ 18 < x + y))) ∧
    Dec.Add ⟨none⟩ p.ValidatorShares = .error .nilDereference ∧
    Params.Validate ⟨p.EnableFees, ⟨none⟩, ⟨none⟩, p.AddrDerivationCostCreate, ⟨none⟩⟩
      = .ok (some .nilParameter) := by
  have hret := Validate_returns p
  have hfirst := Validate_eq_firstFailingCheck p
  refine ⟨hret, ?_, validateShares_returns _, validateShares_returns _,
    validateMinGasPrice_returns _, ?_, ?_, ?_, ?_, ?_, rfl⟩
  · intro c hc
    obtain ⟨r, hr⟩ := hret
    rw [hr] at hc
    cases hc
  · intro d hd
    obtain ⟨v⟩ := d
    cases v with
    | none => exact ⟨rfl, rfl, rfl, rfl⟩
    | some x => simp [Dec.IsNil] at hd
  · intro e he
    rw [hfirst, he]
    rfl
  · intro e hd hv
    rw [hfirst, hd, hv]
    rfl
  · intro hd hv
    obtain ⟨x, hx, hx0, hx1⟩ := (validateShares_ok_scaled _).mp hd
    obtain ⟨y, hy, hy0, hy1⟩ := (validateShares_ok_scaled _).mp hv
    refine ⟨x, y, hx, hy, hx0, hx1, hy0, hy1, ?_, ⟨_, value_some _, ?_, ?_⟩,
      BitLen_sum_le x y hx0 hx1 hy0 hy1, by decide, rfl⟩
    · rw [hx, hy]
      exact Add_of_unit_range x y hx0 hx1 hy0 hy1
    · exact (scaled_nonneg_iff (x + y)).mpr (by omega)
    · rw [div_le_iff₀ (by positivity)]
      have h2 : x + y ≤ 2 * 10 ^ 18 := by omega
      exact_mod_cast h2
  · obtain ⟨b, dev, ⟨val⟩, n, g⟩ := p
    cases val <;> rfl

theorem Validate_never_panics_witness :
    validateShares (.dec DefaultParams.DeveloperShares) = .ok none ∧
    validateShares (.dec DefaultParams.ValidatorShares) = .ok none ∧
    ∃ x y : Int, DefaultParams.DeveloperShares = ⟨some x⟩ ∧
      DefaultParams.ValidatorShares = ⟨some y⟩ ∧
      0 ≤ x ∧ x ≤ 10 ^ 18 ∧ 0 ≤ y ∧ y ≤ 10 ^ 18 ∧
      DefaultParams.DeveloperShares.Add DefaultParams.ValidatorShares = .ok ⟨some (x + y)⟩ ∧
      (∃ q : ℚ, Dec.value ⟨some (x + y)⟩ = some q ∧ 0 ≤ q ∧ q ≤ 2) ∧
      BitLen (x + y) ≤ 61 ∧ 61 ≤ maxDecBitLen ∧
      Dec.GT ⟨some (x + y)⟩ OneDec = .ok (decide (10 ^ 18 < x + y)) :=
  ⟨by decide, by decide,
    (Validate_never_panics DefaultParams).2.2.2.2.2.2.2.2.1 (by decide) (by decide)⟩

/-- C16: a parameter set accepted by `Params.Validate` has each of its five
fields accepted by the validator registered for it in `ParamSetPairs`: the
five registered validators, applied in order to the fields they point to, all
return no error. The converse fails: with shares 0.6 and 0.5 and minimum gas
price 0 the five registered validators all succeed and `Validate` returns the
total-shares error. -/
theorem Validate_stricter_than_pairs (p : Params) (h : p.Validate = .ok none) :
    p.ParamSetPairs.map (fun pair => (pair.Key, pair.ValidatorFn (pair.Value.deref p))) =
      [ ("EnableFees", .ok none), ("DeveloperShares", .ok none),
        ("ValidatorShares", .ok none), ("AddrDerivationCostCreate", .ok none),
        ("MinGasPrice", .ok none) ] ∧
    (validateBool (.bool p.EnableFees) = .ok none ∧
      validateShares (.dec p.DeveloperShares) = .ok none ∧
      validateShares (.dec p.ValidatorShares) = .ok none ∧
      validateUint64 (.uint64 p.AddrDerivationCostCreate) = .ok none ∧
      validateMinGasPrice (.dec p.MinGasPrice) = .ok none) ∧
    (∀ pair ∈ p.ParamSetPairs, pair.ValidatorFn (pair.Value.deref p) = .ok none) ∧
    (NewParams true (NewDecWithPrec 6 1 (by decide))
        (NewDecWithPrec 5 1 (by decide)) 50 ZeroDec).ParamSetPairs.map
      (fun pair => (pair.Key, pair.ValidatorFn (pair.Value.deref
        (NewParams true (NewDecWithPrec 6 1 (by decide))
          (NewDecWithPrec 5 1 (by decide)) 50 ZeroDec)))) =
      [ ("EnableFees", .ok none), ("DeveloperShares", .ok none),
        ("ValidatorShares", .ok none), ("AddrDerivationCostCreate", .ok none),
        ("MinGasPrice", .ok none) ] ∧
    (NewParams true (NewDecWithPrec 6 1 (by decide)) (NewDecWithPrec 5 1 (by decide)) 50
        ZeroDec).Validate
      = .ok (some (.totalShares (NewDecWithPrec 6 1 (by decide))
          (NewDecWithPrec 5 1 (by decide)))) := by
  obtain ⟨x, y, z, hx, hy, hz, h1, h2, h3, h4, h5, h6⟩ := (Validate_accepts_scaled p).mp h
  have hdev : validateShares (.dec p.DeveloperShares) = .ok none :=
    (validateShares_ok_scaled _).mpr ⟨x, hx, h1, h2⟩
  have hval : validateShares (.dec p.ValidatorShares) = .ok none :=
    (validateShares_ok_scaled _).mpr ⟨y, hy, h3, h4⟩
  have hmgp : validateMinGasPrice (.dec p.MinGasPrice) = .ok none := by
    rw [hz, validateMinGasPrice_some, if_neg (not_lt.mpr h6)]
  refine ⟨?_, ⟨rfl, hdev, hval, rfl, hmgp⟩, ?_, by decide, by decide⟩
  · simp only [Params.ParamSetPairs, NewParamSetPair, List.map_cons, List.map_nil,
      FieldPtr.deref, hdev, hval, hmgp, ParamStoreKeyEnableFees,
      ParamStoreKeyDeveloperShares, ParamStoreKeyValidatorShares,
      ParamStoreKeyAddrDerivationCostCreate, ParamStoreKeyMinGasPrice]
    rfl
  · intro pair hpair
    simp only [Params.ParamSetPairs, NewParamSetPair, List.mem_cons, List.mem_singleton,
      List.not_mem_nil, or_false] at hpair
    rcases hpair with hp | hp | hp | hp | hp <;> subst hp
    · rfl
    · exact hdev
    · exact hval
    · rfl
    · exact hmgp

theorem Validate_stricter_than_pairs_witness :
    DefaultParams.Validate = .ok none ∧
    DefaultParams.ParamSetPairs.map
      (fun pair => (pair.Key, pair.ValidatorFn (pair.Value.deref DefaultParams))) =
      [ ("EnableFees", .ok none), ("DeveloperShares", .ok none),
        ("ValidatorShares", .ok none), ("AddrDerivationCostCreate", .ok none),
        ("MinGasPrice", .ok none) ] :=
  ⟨by decide, (Validate_stricter_than_pairs DefaultParams (by decide)).1⟩

/-- C17: acceptance by `Params.Validate` is downward closed in the shares: if
a parameter set with shares `(dev, val)` is accepted, so is every parameter
set that differs only in its shares `(dev2, val2)` with `0 ≤ dev2 ≤ dev` and
`0 ≤ val2 ≤ val`, down to shares equal to 0. -/
theorem Validate_downward_closed (p : Params) (dev2 val2 : Dec) (qd qv qd2 qv2 : ℚ)
    (h : p.Validate = .ok none)
    (hd : p.DeveloperShares.value = some qd) (hv : p.ValidatorShares.value = some qv)
    (hd2 : dev2.value = some qd2) (hv2 : val2.value = some qv2)
    (hd0 : 0 ≤ qd2) (hdle : qd2 ≤ qd) (hv0 : 0 ≤ qv2) (hvle : qv2 ≤ qv) :
    Params.Validate ⟨p.EnableFees, dev2, val2, p.AddrDerivationCostCreate, p.MinGasPrice⟩
      = .ok none ∧
    Params.Validate ⟨p.EnableFees, ZeroDec, p.ValidatorShares, p.AddrDerivationCostCreate,
      p.MinGasPrice⟩ = .ok none ∧
    Params.Validate ⟨p.EnableFees, p.DeveloperShares, ZeroDec, p.AddrDerivationCostCreate,
      p.MinGasPrice⟩ = .ok none ∧
    Params.Validate ⟨p.EnableFees, ZeroDec, ZeroDec, p.AddrDerivationCostCreate,
      p.MinGasPrice⟩ = .ok none := by
  obtain ⟨dv, vl, mg, hdv, hvl, hmg, h1, h2, h3, h4, h5, h6⟩ :=
    (Validate_accepts_SpecValid p).mp h
  have e1 : dv = qd := Option.some.inj (hdv.symm.trans hd)
  have e2 : vl = qv := Option.some.inj (hvl.symm.trans hv)
  subst e1 e2
  have hz : ZeroDec.value = some 0 := by simp [ZeroDec, value_some]
  refine ⟨?_, ?_, ?_, ?_⟩
  · exact (Validate_accepts_SpecValid _).mpr
      ⟨qd2, qv2, mg, hd2, hv2, hmg, hd0, by linarith, hv0, by linarith, by linarith, h6⟩
  · exact (Validate_accepts_SpecValid _).mpr
      ⟨0, vl, mg, hz, hvl, hmg, le_rfl, by norm_num, h3, h4, by linarith, h6⟩
  · exact (Validate_accepts_SpecValid _).mpr
      ⟨dv, 0, mg, hdv, hz, hmg, h1, h2, le_rfl, by norm_num, by linarith, h6⟩
  · exact (Validate_accepts_SpecValid _).mpr
      ⟨0, 0, mg, hz, hz, hmg, le_rfl, by norm_num, le_rfl, by norm_num, by norm_num, h6⟩

theorem Validate_downward_closed_witness :
    DefaultParams.Validate = .ok none ∧
    Params.Validate ⟨DefaultParams.EnableFees, NewDecWithPrec 3 1 (by decide),
      NewDecWithPrec 25 2 (by decide), DefaultParams.AddrDerivationCostCreate,
      DefaultParams.MinGasPrice⟩ = .ok none := by
  have hhalf : DefaultParams.DeveloperShares.value = some (1 / 2) := by
    simp only [DefaultParams, DefaultDeveloperShares, NewDecWithPrec, value_some,
      precisionMultiplier, Precision]
    norm_num
  have hhalf2 : DefaultParams.ValidatorShares.value = some (1 / 2) := by
    simp only [DefaultParams, DefaultValidatorShares, NewDecWithPrec, value_some,
      precisionMultiplier, Precision]
    norm_num
  have h3 : (NewDecWithPrec 3 1 (by decide)).value = some (3 / 10) := by
    simp only [NewDecWithPrec, value_some, precisionMultiplier, Precision]
    norm_num
  have h25 : (NewDecWithPrec 25 2 (by decide)).value = some (1 / 4) := by
    simp only [NewDecWithPrec, value_some, precisionMultiplier, Precision]
    norm_num
  exact ⟨by decide,
    (Validate_downward_closed DefaultParams (NewDecWithPrec 3 1 (by decide))
      (NewDecWithPrec 25 2 (by decide)) (1 / 2) (1 / 2) (3 / 10) (1 / 4) (by decide)
      hhalf hhalf2 h3 h25 (by norm_num) (by norm_num) (by norm_num) (by norm_num)).1⟩

end Fees
